import Mathlib

/-!
# Verification of the JDA AI Portal proposal/file/role model

Shallow embedding of the executable logic found in the repository's
frontend components (file upload validation, role gate, client portal
request construction, proposal editor parse/save) together with
spec-modelled definitions for the backend operations that the frontend
calls but whose implementation is not part of the source tree
(proposal status updates, client-scoped listing, create/fetch store).

Strings are modelled with Lean `String`; JavaScript `s.split(sep)` (for a
non-empty separator), `s.toLowerCase()`, `s.includes(pat)` and
`parts.join(sep)` are given structurally recursive models (`jsSplit`,
`jsToLower`, `jsIncludes`, `jsJoin`), and `Array.prototype.pop()` on the
split result is `List.getLast?` (with `""` for the `|| ''` fallback).
-/

namespace JdaPortal

/-- When `pat` is an initial run of `cs`, the rest of `cs`. -/
def stripLeading : List Char → List Char → Option (List Char)
  | [], cs => some cs
  | _ :: _, [] => none
  | p :: ps, c :: cs => if p = c then stripLeading ps cs else none

/-- JS `s.split(sep)` on character lists for a non-empty `sep`; `fuel`
bounds the scan and is called with `cs.length + 1`, enough to consume
every character. -/
def jsSplitAux (sep : List Char) : ℕ → List Char → List (List Char)
  | 0, cs => [cs]
  | _ + 1, [] => [[]]
  | fuel + 1, c :: cs =>
    match stripLeading sep (c :: cs) with
    | some rest => [] :: jsSplitAux sep fuel rest
    | none =>
      match jsSplitAux sep fuel cs with
      | [] => [[c]]
      | chunk :: chunks => (c :: chunk) :: chunks

/-- JS `s.split(sep)` for a non-empty separator. -/
def jsSplit (s sep : String) : List String :=
  (jsSplitAux sep.data (s.data.length + 1) s.data).map String.mk

/-- JS `s.toLowerCase()` (ASCII case folding, as every name the code
compares is ASCII). -/
def jsToLower (s : String) : String :=
  String.mk (s.data.map Char.toLower)

/-- Join a list of strings with a separator (JS `parts.join(sep)`). -/
def jsJoin (sep : String) : List String → String
  | [] => ""
  | p :: ps => ps.foldl (fun acc q => acc ++ sep ++ q) p

/-- JS `s.includes(pat)` for a non-empty pattern: `s.split(pat)` has more
than one chunk exactly when `pat` occurs in `s`. -/
def jsIncludes (s pat : String) : Bool :=
  (jsSplit s pat).length != 1

/-- JS `filename.toLowerCase().split('.').pop() || ''` — the lower-cased
text after the last dot (the whole lower-cased name when there is no dot). -/
def jsExtOf (filename : String) : String :=
  ((jsSplit (jsToLower filename) ".").getLast?).getD ""

/-! ## File upload component (FileUpload.tsx)

`getFileType`, `formatFileSize`, `validateFile` and `handleFiles` from the
upload component. -/

/-- The `file_type` union of the upload component. -/
inductive FileType where
  | image
  | document
  | spreadsheet
  | presentation
  | transcript
  deriving DecidableEq, Repr

/-- `getFileType(filename)`: classify by the extension, except that
txt/docx/pdf files whose lower-cased name contains `"transcript"` are
classified as `transcript`. -/
def getFileType (filename : String) : FileType :=
  let extension := jsExtOf filename
  if ["jpg", "jpeg", "png", "gif", "bmp", "webp"].contains extension then
    .image
  else if ["xls", "xlsx", "csv"].contains extension then
    .spreadsheet
  else if ["ppt", "pptx"].contains extension then
    .presentation
  else if ["txt", "docx", "pdf"].contains extension
      && jsIncludes (jsToLower filename) "transcript" then
    .transcript
  else
    .document

/-- The `sizes` array of `formatFileSize`. -/
def fileSizeUnits : List String := ["Bytes", "KB", "MB", "GB"]

/-- `Math.floor(Math.log(bytes) / Math.log(1024))` for `bytes ≥ 1`,
modelled exactly as the integer base-1024 logarithm. -/
def sizeUnitIndex (bytes : ℕ) : ℕ := Nat.log 1024 bytes

/-- `parseFloat(x.toFixed(2))`: round to two decimal places. -/
def roundTo2 (q : ℚ) : ℚ := (round (q * 100) : ℤ) / 100

/-- Result of `formatFileSize`: either the literal `'0 Bytes'`, or a
scaled value paired with `sizes[i]` — `none` when the index `i` is outside
the `sizes` array (JS `undefined`). -/
inductive SizeDisplay where
  | zeroBytes
  | scaled (value : ℚ) (unit : Option String)
  deriving DecidableEq, Repr

/-- `formatFileSize(bytes)`: `'0 Bytes'` for 0, otherwise
`parseFloat((bytes / Math.pow(1024, i)).toFixed(2)) + ' ' + sizes[i]`
with `i = Math.floor(Math.log(bytes) / Math.log(1024))`. -/
def formatFileSize (bytes : ℕ) : SizeDisplay :=
  if bytes = 0 then
    .zeroBytes
  else
    .scaled (roundTo2 ((bytes : ℚ) / 1024 ^ sizeUnitIndex bytes))
      (fileSizeUnits.get? (sizeUnitIndex bytes))

/-- The component props that configure validation, with the defaults
`maxFiles = 10`, `maxFileSize = 50 * 1024 * 1024` and the default
`allowedTypes` extension allow-list. -/
structure UploadConfig where
  maxFiles : ℕ
  maxFileSize : ℕ
  allowedTypes : List String
  deriving DecidableEq, Repr

/-- The default prop values of the upload component. -/
def defaultUploadConfig : UploadConfig where
  maxFiles := 10
  maxFileSize := 50 * 1024 * 1024
  allowedTypes := [".jpg", ".jpeg", ".png", ".gif", ".bmp", ".webp", ".pdf",
    ".doc", ".docx", ".txt", ".rtf", ".xls", ".xlsx", ".csv", ".ppt", ".pptx"]

/-- A browser `File` as the validator sees it: `name` and `size` are read
by `validateFile`; the declared MIME `declaredType` and the raw `content`
exist on the object but are never consulted by the validator. -/
structure JsFile where
  name : String
  size : ℕ
  declaredType : String
  content : String
  deriving DecidableEq, Repr

/-- The distinct rejection messages produced by `validateFile`:
`FileTooLarge` for "File size (…) exceeds maximum allowed (…)",
`UnsupportedType` for "File type … is not allowed …", and
`MaxFilesReached` for "Maximum … files allowed". -/
inductive UploadError where
  | FileTooLarge
  | UnsupportedType
  | MaxFilesReached
  deriving DecidableEq, Repr

/-- The extension the validator compares against the allow-list:
`'.' + file.name.toLowerCase().split('.').pop()`. -/
def validatedExtension (name : String) : String :=
  "." ++ ((jsSplit (jsToLower name) ".").getLast?).getD ""

/-- `validateFile(file)` with the surrounding state made explicit:
`filesLen` is `files.length` (the stored list before the batch). Checks
size, then the extension allow-list, then the stored-file count; returns
`none` (JS `null`) when the file passes. -/
def validateFile (cfg : UploadConfig) (filesLen : ℕ) (f : JsFile) :
    Option UploadError :=
  if cfg.maxFileSize < f.size then
    some .FileTooLarge
  else
    let extension := validatedExtension f.name
    if !cfg.allowedTypes.contains extension then
      some .UnsupportedType
    else if cfg.maxFiles ≤ filesLen then
      some .MaxFilesReached
    else
      none

/-- The stored record built for an accepted file (the random
`Date.now()-Math.random()` id is omitted; `status: 'uploading'`,
`progress: 0` are constants). -/
structure UploadedFile where
  filename : String
  file_type : FileType
  file_size : ℕ
  deriving DecidableEq, Repr

/-- The record `handleFiles` pushes onto `newFiles` for a valid file. -/
def mkUploadedFile (f : JsFile) : UploadedFile where
  filename := f.name
  file_type := getFileType f.name
  file_size := f.size

/-- The files of a batch that pass `validateFile` against the pre-batch
stored count (every file in the batch is validated against the same
`files.length`, which does not change during the loop). -/
def acceptedFiles (cfg : UploadConfig) (prev : List UploadedFile)
    (batch : List JsFile) : List JsFile :=
  batch.filter (fun f => validateFile cfg prev.length f == none)

/-- Result of one `handleFiles(fileList)` call: the stored list after
`setFiles`, the per-file error messages, and the files handed to
`uploadFiles` (the second `filter(file => !validateFile(file))` pass). -/
structure HandleFilesResult where
  files : List UploadedFile
  errors : List (String × UploadError)
  toUpload : List JsFile
  deriving DecidableEq, Repr

/-- `handleFiles(fileList)`: validate each file of the batch against the
pre-batch state, collect errors, append the accepted records, and upload
exactly the files that re-validate clean. -/
def handleFiles (cfg : UploadConfig) (prev : List UploadedFile)
    (batch : List JsFile) : HandleFilesResult :=
  let newFiles := (acceptedFiles cfg prev batch).map mkUploadedFile
  let errors := batch.filterMap fun f =>
    (validateFile cfg prev.length f).map fun e => (f.name, e)
  { files := if newFiles.isEmpty then prev else prev ++ newFiles
    errors := errors
    toUpload := acceptedFiles cfg prev batch }

/-! ## Roles and the role gate (Frontend Integration Guide, `hasRequiredRole`) -/

/-- The three user roles. -/
inductive Role where
  | client
  | project_manager
  | admin
  deriving DecidableEq, Repr

/-- The `roleHierarchy` lookup object. -/
def roleHierarchy : Role → ℕ
  | .client => 1
  | .project_manager => 2
  | .admin => 3

/-- `hasRequiredRole(userRole, requiredRole)`:
`roleHierarchy[userRole] >= roleHierarchy[requiredRole]`. -/
def hasRequiredRole (userRole requiredRole : Role) : Bool :=
  roleHierarchy requiredRole ≤ roleHierarchy userRole

/-- The fixed ordering `client < project_manager < admin` stated in the
spec, written as an inductive relation independent of `roleHierarchy`
(the reflexive-transitive closure of the two covering steps). -/
inductive RoleLe : Role → Role → Prop where
  | refl (r : Role) : RoleLe r r
  | client_pm : RoleLe .client .project_manager
  | client_admin : RoleLe .client .admin
  | pm_admin : RoleLe .project_manager .admin

/-! ## Proposal status machine

The status values come from the frontend types; the transition-validating
update itself lives in the backend service, which is not part of the
source tree, so it is modelled from the spec. -/

/-- The `ProposalStatus` union. -/
inductive ProposalStatus where
  | draft
  | in_review
  | approved
  | sent
  | accepted
  | rejected
  deriving DecidableEq, Repr

/-- Modelled from the spec: the allowed edges of the proposal status flow
`draft → in_review → approved → sent → accepted/rejected` (§4.2); no
backward transitions are defined. -/
def allowedTransition : ProposalStatus → ProposalStatus → Bool
  | .draft, .in_review => true
  | .in_review, .approved => true
  | .approved, .sent => true
  | .sent, .accepted => true
  | .sent, .rejected => true
  | _, _ => false

/-- A proposal row, with the fields the verified operations touch:
`clientId` is the client assignment, `share_token` the optional public
read credential. -/
structure Proposal where
  id : ℕ
  project_name : String
  client_name : String
  status : ProposalStatus
  content : String
  clientId : Option ℕ
  share_token : Option String
  deriving DecidableEq, Repr

/-- The error a failed service call reports to the caller. -/
inductive ApiError where
  | InvalidTransition
  deriving DecidableEq, Repr

/-- Modelled from the spec: the backend status-update behind
`proposalService.updateProposal({status})` — a transition not in the
allowed set fails with `InvalidTransition` and changes nothing (§4.2,
§7). -/
def updateProposalStatus (p : Proposal) (target : ProposalStatus) :
    Except ApiError Proposal :=
  if allowedTransition p.status target then
    .ok { p with status := target }
  else
    .error .InvalidTransition

/-- Outcome of the editor's `handleStatusChange`: the proposal state kept
by the component and the surfaced error, if any. -/
structure StatusChangeOutcome where
  proposal : Proposal
  error : Option ApiError
  deriving DecidableEq, Repr

/-- `handleStatusChange(newStatus)` from the proposal editor: on service
success the component stores the updated proposal; on failure it keeps
the proposal unchanged and reports the error (no retry). -/
def handleStatusChange (p : Proposal) (newStatus : ProposalStatus) :
    StatusChangeOutcome :=
  match updateProposalStatus p newStatus with
  | .ok updated => { proposal := updated, error := none }
  | .error e => { proposal := p, error := some e }

/-! ## Client-scoped proposal listing (ClientPortal.tsx + spec-modelled backend) -/

/-- A caller: id, role, and the share tokens the caller presents. -/
structure AppUser where
  id : ℕ
  role : Role
  heldTokens : List String
  deriving DecidableEq, Repr

/-- Modelled from the spec: a proposal is explicitly shared with a client
when the client is its assigned client or holds its share token (§3,
§8). -/
def isSharedWithClient (u : AppUser) (p : Proposal) : Bool :=
  p.clientId == some u.id ||
    (match p.share_token with
     | some t => u.heldTokens.contains t
     | none => false)

/-- Modelled from the spec: the backend proposal listing — callers with
role `client` receive only proposals explicitly shared with them; staff
roles receive the full store (§8). The frontend `fetchClientProposals`
only adds status query parameters and relies on this server-side
filter. -/
def listProposals (u : AppUser) (store : List Proposal) : List Proposal :=
  if u.role == Role.client then store.filter (isSharedWithClient u) else store

/-- JS truthiness of an optional string prop: present and non-empty. -/
def jsTruthyStr : Option String → Bool
  | some t => t != ""
  | none => false

/-- The request `fetch` receives: URL and `Authorization` header value. -/
structure HttpRequest where
  url : String
  authHeader : String
  deriving DecidableEq, Repr

/-- `fetchClientProposals` request construction: with public access and a
share token the URL is the shared-proposal endpoint keyed by the token;
otherwise the authenticated listing with status filters. The
`Authorization` header is the empty string whenever `isPublicAccess`,
else `Bearer` plus the stored token. -/
def fetchClientProposalsRequest (isPublicAccess : Bool)
    (shareToken : Option String) (storedToken : String) : HttpRequest :=
  let auth := if isPublicAccess then "" else "Bearer " ++ storedToken
  if isPublicAccess && jsTruthyStr shareToken then
    { url := "/api/v1/proposals/shared/" ++ shareToken.getD ""
      authHeader := auth }
  else
    { url := "/api/v1/proposals/?status=approved&status=sent&status=accepted"
      authHeader := auth }

/-! ## Proposal store (spec-modelled backend create/fetch) -/

/-- Modelled from the spec: creating a proposal persists the given row
(§8 round-trip property). -/
def createProposal (store : List Proposal) (p : Proposal) : List Proposal :=
  store ++ [p]

/-- Modelled from the spec: fetching a proposal by id returns the stored
row with that id. -/
def getProposalById (store : List Proposal) (i : ℕ) : Option Proposal :=
  store.find? (fun p => p.id == i)

/-! ## Proposal editor parse/save (ProposalEditor)

`parseContentIntoSections` splits the HTML content with the regex
`<section[^>]*class="([^"]*)"[^>]*>(.*?)<\/section>` (global, dot-all),
builds editable sections, and falls back to one `main-content` section
when nothing matches. `handleSave` reconstructs the content string from
the sections. The regexes are modelled by direct string scanning: each
occurrence of `<section` is a candidate match start, the class value is
taken up to the closing quote inside the opening tag, and the lazy body
runs to the nearest `</section>` — faithful for the non-nested section
markup this component reads and writes. -/

/-- Strip HTML tags: `content.replace(/<[^>]*>/g, '')`. A `<` with no
later `>` in its chunk is not a tag and is kept. -/
def stripTags (s : String) : String :=
  match jsSplit s "<" with
  | [] => ""
  | first :: rest =>
    first ++ jsJoin "" (rest.map fun chunk =>
      match jsSplit chunk ">" with
      | _ :: tailParts@(_ :: _) => jsJoin ">" tailParts
      | _ => "<" ++ chunk)

/-- Accumulate the lazy body `(.*?)` up to the first closing `</h[1-6]>`:
`acc` is the text gathered so far, the list holds the chunks following
further `</h` occurrences. -/
def innerBeforeClosingHeading : String → List String → Option String
  | _, [] => none
  | acc, q :: qs =>
    match q.data with
    | d :: gt :: _ =>
      if d ∈ ['1', '2', '3', '4', '5', '6'] ∧ gt = '>' then some acc
      else innerBeforeClosingHeading (acc ++ "</h" ++ q) qs
    | _ => innerBeforeClosingHeading (acc ++ "</h" ++ q) qs

/-- First match of `<h[1-6][^>]*>(.*?)<\/h[1-6]>`: the captured heading
body, if any heading occurs in the content. -/
def findHeadingInner (content : String) : Option String :=
  ((jsSplit content "<h").drop 1).findSome? fun chunk =>
    match chunk.data with
    | d :: rest =>
      if d ∈ ['1', '2', '3', '4', '5', '6'] then
        let s := String.mk rest
        match jsSplit s ">" with
        | _ :: tailParts@(_ :: _) =>
          let afterTag := jsJoin ">" tailParts
          match jsSplit afterTag "</h" with
          | body :: closers => innerBeforeClosingHeading body closers
          | [] => none
        | _ => none
      else none
    | [] => none

/-- `extractSectionTitle(content)`: the first heading's text with HTML
tags stripped, else `'Untitled Section'`. -/
def extractSectionTitle (content : String) : String :=
  match findHeadingInner content with
  | some inner => stripTags inner
  | none => "Untitled Section"

/-- One attempt of the section regex at the text following `<section`:
returns the captured `(className, body)` when the opening tag closes with
a `class="…"` attribute and a matching `</section>` follows. -/
def parseSectionAt (s : String) : Option (String × String) :=
  match jsSplit s ">" with
  | [] => none
  | tag :: tagRest =>
    match jsSplit tag "class=\"" with
    | _ :: attrRest@(_ :: _) =>
      let afterClass := jsJoin "class=\"" attrRest
      match jsSplit afterClass "\"" with
      | className :: _ :: _ =>
        if tagRest.isEmpty then none
        else
          let afterTag := jsJoin ">" tagRest
          match jsSplit afterTag "</section>" with
          | body :: _ :: _ => some (className, body)
          | _ => none
      | _ => none
    | _ => none

/-- An editable section of the proposal editor. -/
structure EditableSection where
  id : String
  title : String
  content : String
  editable : Bool
  aiGenerated : Bool
  deriving DecidableEq, Repr

/-- `parseContentIntoSections(content)`: every regex match becomes a
section (`editable` unless the class names header/footer, `aiGenerated`
when the class contains `ai-generated`); with no match the whole content
becomes the single editable `main-content` section. -/
def parseContentIntoSections (content : String) : List EditableSection :=
  let matched := ((jsSplit content "<section").drop 1).filterMap parseSectionAt
  let sections := matched.enum.map fun x =>
    { id := "section-" ++ toString x.1
      title := extractSectionTitle x.2.2
      content := x.2.2
      editable := !(jsIncludes x.2.1 "header") && !(jsIncludes x.2.1 "footer")
      aiGenerated := jsIncludes x.2.1 "ai-generated" : EditableSection }
  if sections.isEmpty then
    [{ id := "main-content"
       title := "Main Content"
       content := content
       editable := true
       aiGenerated := false }]
  else sections

/-- The content string `handleSave` submits: each section rendered as
`<section class="section …">…</section>`, joined with newlines. -/
def reconstructContent (sections : List EditableSection) : String :=
  jsJoin "\n" (sections.map fun s =>
    "<section class=\"section "
      ++ (if s.aiGenerated then "ai-generated" else "")
      ++ "\">" ++ s.content ++ "</section>")

/-! ## Shared sample data and helper lemmas -/

/-- A concrete proposal used by several witnesses. -/
def sampleProposal : Proposal :=
  { id := 1, project_name := "Alpha", client_name := "Acme",
    status := .sent, content := "<p>x</p>", clientId := some 7,
    share_token := none }

/-- A concrete client-role caller. -/
def sampleClient : AppUser := { id := 7, role := .client, heldTokens := [] }

/-- A proposal assigned to a different client and not shared. -/
def foreignProposal : Proposal :=
  { id := 2, project_name := "Beta", client_name := "Other",
    status := .sent, content := "", clientId := some 8, share_token := none }

/-- A file over the ceiling of `smallUploadConfig`. -/
def oversizeFile : JsFile :=
  { name := "big.txt", size := 6, declaredType := "text/plain",
    content := "abcdef" }

/-- A small configuration with a 5-byte ceiling. -/
def smallUploadConfig : UploadConfig :=
  { maxFiles := 10, maxFileSize := 5, allowedTypes := [".txt"] }

/-- A file whose declared MIME type says PDF while its content starts
with the GIF image signature. -/
def mismatchedFile : JsFile :=
  { name := "report.pdf", size := 10, declaredType := "application/pdf",
    content := "GIF89a" }

/-- A file the validator accepts never exceeds the size ceiling. -/
theorem validateFile_none_size_le {cfg : UploadConfig} {n : ℕ} {f : JsFile}
    (h : validateFile cfg n f = none) : f.size ≤ cfg.maxFileSize := by
  by_contra hlt
  push_neg at hlt
  simp [validateFile, hlt] at h

/-! ## Claim theorems -/

/-- Claim C1: a status-change attempt outside the allowed edges of the
`draft → in_review → approved → sent → accepted/rejected` flow leaves the
proposal unchanged and surfaces `InvalidTransition` to the caller. -/
theorem invalid_status_transition_rejected (p : Proposal) (t : ProposalStatus)
    (h : allowedTransition p.status t = false) :
    (handleStatusChange p t).proposal = p ∧
      (handleStatusChange p t).error = some ApiError.InvalidTransition := by
  simp [handleStatusChange, updateProposalStatus, h]

/-- Claim C1 witness: a `sent → draft` attempt on a concrete proposal. -/
theorem invalid_status_transition_rejected_witness :
    allowedTransition sampleProposal.status .draft = false ∧
      (handleStatusChange sampleProposal .draft).proposal = sampleProposal ∧
      (handleStatusChange sampleProposal .draft).error =
        some ApiError.InvalidTransition :=
  ⟨by decide,
    (invalid_status_transition_rejected sampleProposal .draft (by decide)).1,
    (invalid_status_transition_rejected sampleProposal .draft (by decide)).2⟩

/-- Claim C2: whatever the store holds, a client-role caller receives
only proposals explicitly shared with them (client assignment or share
token) from the listing. -/
theorem client_listing_only_shared (u : AppUser) (store : List Proposal)
    (p : Proposal) (hrole : u.role = Role.client)
    (hp : p ∈ listProposals u store) : isSharedWithClient u p = true := by
  simp only [listProposals, hrole] at hp
  simp at hp
  exact hp.2

/-- Claim C2 witness: a store holding a shared and a foreign proposal;
the listed proposal is shared with the caller. -/
theorem client_listing_only_shared_witness :
    sampleClient.role = Role.client ∧
      sampleProposal ∈ listProposals sampleClient
        [sampleProposal, foreignProposal] ∧
      isSharedWithClient sampleClient sampleProposal = true :=
  ⟨rfl, by decide,
    client_listing_only_shared sampleClient [sampleProposal, foreignProposal]
      sampleProposal rfl (by decide)⟩

/-- Claim C3: a file over the configured size ceiling is always rejected
with the `FileTooLarge` error; it is excluded from the accepted batch,
never handed to the uploader, and no record for it is appended to the
stored list. -/
theorem oversize_file_rejected (cfg : UploadConfig) (prev : List UploadedFile)
    (batch : List JsFile) (f : JsFile)
    (hsize : cfg.maxFileSize < f.size) :
    validateFile cfg prev.length f = some UploadError.FileTooLarge ∧
      f ∉ acceptedFiles cfg prev batch ∧
      f ∉ (handleFiles cfg prev batch).toUpload ∧
      mkUploadedFile f ∉
        ((handleFiles cfg prev batch).files).drop prev.length := by
  have h1 : validateFile cfg prev.length f = some UploadError.FileTooLarge := by
    simp [validateFile, hsize]
  have h2 : f ∉ acceptedFiles cfg prev batch := by
    intro hmem
    have := (List.mem_filter.mp hmem).2
    simp [h1] at this
  refine ⟨h1, h2, ?_, ?_⟩
  · simpa [handleFiles] using h2
  · intro hmem
    simp only [handleFiles] at hmem
    by_cases hemp : ((acceptedFiles cfg prev batch).map mkUploadedFile).isEmpty
    · simp [hemp, List.drop_length] at hmem
    · simp only [hemp, if_neg, Bool.false_eq_true, not_false_eq_true,
        List.drop_left] at hmem
      obtain ⟨g, hg, hmk⟩ := List.mem_map.mp hmem
      have hgle : g.size ≤ cfg.maxFileSize :=
        validateFile_none_size_le (by simpa using (List.mem_filter.mp hg).2)
      have : g.size = f.size := congrArg UploadedFile.file_size hmk
      omega

/-- Claim C3 witness: a 6-byte file against a 5-byte ceiling. -/
theorem oversize_file_rejected_witness :
    smallUploadConfig.maxFileSize < oversizeFile.size ∧
      validateFile smallUploadConfig ([] : List UploadedFile).length
          oversizeFile = some UploadError.FileTooLarge ∧
      oversizeFile ∉ acceptedFiles smallUploadConfig [] [oversizeFile] ∧
      oversizeFile ∉ (handleFiles smallUploadConfig [] [oversizeFile]).toUpload ∧
      mkUploadedFile oversizeFile ∉
        ((handleFiles smallUploadConfig [] [oversizeFile]).files).drop
          ([] : List UploadedFile).length := by
  refine ⟨by decide, ?_⟩
  exact oversize_file_rejected smallUploadConfig [] [oversizeFile] oversizeFile
    (by decide)

/-- Claim C4 counterexample: a size- and extension-valid file whose
content (GIF signature) disagrees with its declared PDF type is accepted
outright — no `ContentMismatch` check exists in the validator. -/
theorem validator_no_content_check_cex :
    mismatchedFile.declaredType = "application/pdf" ∧
      mismatchedFile.content = "GIF89a" ∧
      mismatchedFile.size ≤ defaultUploadConfig.maxFileSize ∧
      validateFile defaultUploadConfig 0 mismatchedFile = none := by
  decide

/-- Claim C4 (amended): the validator rejects with `FileTooLarge` above
the ceiling and `UnsupportedType` for extensions outside the allow-list,
but it never consults the declared MIME type or the content — its verdict
is a function of the file name and size alone. -/
theorem validator_checks_name_and_size_only (cfg : UploadConfig) (n : ℕ)
    (f g : JsFile) (hname : f.name = g.name) (hsize : f.size = g.size) :
    validateFile cfg n f = validateFile cfg n g ∧
      (cfg.maxFileSize < f.size →
        validateFile cfg n f = some UploadError.FileTooLarge) ∧
      (f.size ≤ cfg.maxFileSize →
        cfg.allowedTypes.contains (validatedExtension f.name) = false →
        validateFile cfg n f = some UploadError.UnsupportedType) := by
  refine ⟨by simp [validateFile, hname, hsize],
    fun h => by simp [validateFile, h], fun hle hext => ?_⟩
  simp [validateFile, Nat.not_lt.mpr hle, hext]
  simpa using hext

/-- Claim C4 witness: two files equal except for declared type and
content receive the same verdict. -/
theorem validator_checks_name_and_size_only_witness :
    mismatchedFile.name = mismatchedFile.name ∧
      validateFile defaultUploadConfig 0 mismatchedFile =
        validateFile defaultUploadConfig 0
          { name := "report.pdf", size := 10, declaredType := "image/gif",
            content := "%PDF-1.4" } :=
  ⟨rfl,
    (validator_checks_name_and_size_only defaultUploadConfig 0 mismatchedFile
      { name := "report.pdf", size := 10, declaredType := "image/gif",
        content := "%PDF-1.4" } rfl rfl).1⟩

/-- Claim C5: the role gate grants access exactly when the caller's role
is at least the required role in the fixed ordering
`client < project_manager < admin`; admin passes every check and client
passes only client-level checks. -/
theorem role_gate_matches_ordering :
    (∀ u r : Role, hasRequiredRole u r = true ↔ RoleLe r u) ∧
      (∀ r : Role, hasRequiredRole .admin r = true) ∧
      (∀ r : Role, hasRequiredRole .client r = true ↔ r = .client) := by
  refine ⟨?_, ?_, ?_⟩
  · intro u r
    cases u <;> cases r <;>
      simp [hasRequiredRole, roleHierarchy] <;>
      first
        | exact RoleLe.refl _
        | exact RoleLe.client_pm
        | exact RoleLe.client_admin
        | exact RoleLe.pm_admin
        | (intro h; cases h)
  · intro r; cases r <;> decide
  · intro r; cases r <;> simp [hasRequiredRole, roleHierarchy]

/-- Claim C6: with public access and a non-empty share token, the
proposal fetch targets the shared-proposal endpoint keyed by the token
and its `Authorization` header is empty — no bearer credential. -/
theorem share_token_fetch_unauthenticated (t stored : String) (ht : t ≠ "") :
    fetchClientProposalsRequest true (some t) stored =
      { url := "/api/v1/proposals/shared/" ++ t, authHeader := "" } := by
  simp [fetchClientProposalsRequest, jsTruthyStr, ht]

/-- Claim C6 witness: a concrete token and stored credential. -/
theorem share_token_fetch_unauthenticated_witness :
    ("abc123" : String) ≠ "" ∧
      fetchClientProposalsRequest true (some "abc123") "secret" =
        { url := "/api/v1/proposals/shared/abc123", authHeader := "" } :=
  ⟨by decide, share_token_fetch_unauthenticated "abc123" "secret" (by decide)⟩

/-- Claim C7 counterexample: parsing the sectionless content `"Hello"`
into sections and saving reconstructs a section-wrapped string, not the
original content — the parse/save path is not the identity. -/
theorem parse_save_roundtrip_cex :
    reconstructContent (parseContentIntoSections "Hello") =
        "<section class=\"section \">Hello</section>" ∧
      reconstructContent (parseContentIntoSections "Hello") ≠ "Hello" := by
  decide

/-- Claim C7 (amended): creating a proposal with a fresh id and fetching
it by id returns the stored row itself, so content and status are
identical; the editor's parse-then-save path, by contrast, normalizes
the content string (see the counterexample). -/
theorem create_fetch_roundtrip (store : List Proposal) (p : Proposal)
    (hfresh : ∀ q ∈ store, q.id ≠ p.id) :
    getProposalById (createProposal store p) p.id = some p := by
  induction store with
  | nil => simp [createProposal, getProposalById]
  | cons a as ih =>
    have ha : (a.id == p.id) = false := by
      simpa using hfresh a (List.mem_cons_self a as)
    simp only [createProposal, List.cons_append, getProposalById] at *
    rw [List.find?_cons_of_neg _ (by simp [ha])]
    exact ih fun q hq => hfresh q (List.mem_cons_of_mem a hq)

/-- Claim C7 witness: create into the empty store, fetch by id. -/
theorem create_fetch_roundtrip_witness :
    getProposalById (createProposal [] sampleProposal) sampleProposal.id =
      some sampleProposal :=
  create_fetch_roundtrip [] sampleProposal (by simp)

/-- Claim C8 counterexample: `"a.txt"` and `"transcript.txt"` share the
extension `txt` yet receive different file types, so `file_type` is not a
function of the extension alone. -/
theorem file_type_not_extension_only_cex :
    jsExtOf "a.txt" = jsExtOf "transcript.txt" ∧
      getFileType "a.txt" = FileType.document ∧
      getFileType "transcript.txt" = FileType.transcript ∧
      getFileType "a.txt" ≠ getFileType "transcript.txt" := by
  decide

/-- Claim C8 (amended): `file_type` is a function of the extension
together with whether the lower-cased filename contains `transcript`:
two names agreeing on both are always assigned the same type. -/
theorem file_type_from_ext_and_transcript_flag (f g : String)
    (hext : jsExtOf f = jsExtOf g)
    (htr : jsIncludes (jsToLower f) "transcript" =
      jsIncludes (jsToLower g) "transcript") :
    getFileType f = getFileType g := by
  simp only [getFileType, hext, htr]

/-- Claim C8 witness: two distinct names with the same extension and no
`transcript` marker. -/
theorem file_type_from_ext_and_transcript_flag_witness :
    jsExtOf "a.txt" = jsExtOf "b.txt" ∧
      getFileType "a.txt" = getFileType "b.txt" :=
  ⟨by decide,
    file_type_from_ext_and_transcript_flag "a.txt" "b.txt" (by decide)
      (by decide)⟩

/-- Claim C9: the per-upload count limit is checked only against the
pre-batch stored count, so one batch of valid files can push the stored
list strictly past `maxFiles`. -/
theorem batch_overruns_max_files :
    ∃ (cfg : UploadConfig) (prev : List UploadedFile) (batch : List JsFile),
      prev.length < cfg.maxFiles ∧ 2 ≤ batch.length ∧
        (∀ f ∈ batch, validateFile cfg prev.length f = none) ∧
        cfg.maxFiles < (handleFiles cfg prev batch).files.length := by
  refine ⟨{ maxFiles := 1, maxFileSize := 100, allowedTypes := [".txt"] }, [],
    [{ name := "a.txt", size := 1, declaredType := "text/plain", content := "x" },
     { name := "b.txt", size := 1, declaredType := "text/plain", content := "y" }],
    ?_⟩
  decide

/-- Claim C10: `formatFileSize` maps 0 to the `0 Bytes` literal; for
`1 ≤ b < 1024 ^ 4` the unit index is the integer base-1024 logarithm,
stays within the four-unit array, and the value is `b / 1024 ^ i` rounded
to two decimals; for `b ≥ 1024 ^ 4` the index falls outside the array. -/
theorem format_file_size_ranges :
    formatFileSize 0 = SizeDisplay.zeroBytes ∧
      (∀ b : ℕ, 1 ≤ b → b < 1024 ^ 4 →
        sizeUnitIndex b ≤ 3 ∧
          ∃ u, fileSizeUnits.get? (sizeUnitIndex b) = some u ∧
            formatFileSize b =
              SizeDisplay.scaled (roundTo2 ((b : ℚ) / 1024 ^ sizeUnitIndex b))
                (some u)) ∧
      (∀ b : ℕ, 1024 ^ 4 ≤ b →
        4 ≤ sizeUnitIndex b ∧ fileSizeUnits.get? (sizeUnitIndex b) = none) := by
  refine ⟨by simp [formatFileSize], fun b hb1 hb4 => ?_, fun b hb => ?_⟩
  · have hlog : sizeUnitIndex b < 4 :=
      Nat.log_lt_of_lt_pow (by omega) hb4
    have hlen : sizeUnitIndex b < fileSizeUnits.length := by
      simpa [fileSizeUnits] using hlog
    refine ⟨by omega, fileSizeUnits.get ⟨sizeUnitIndex b, hlen⟩,
      List.get?_eq_get hlen, ?_⟩
    have hb0 : b ≠ 0 := by omega
    simp [formatFileSize, List.get?_eq_get hlen, hb0]
  · have hlog : 4 ≤ sizeUnitIndex b :=
      Nat.le_log_of_pow_le (by norm_num) hb
    refine ⟨hlog, ?_⟩
    exact List.get?_eq_none.mpr (by simpa [fileSizeUnits] using hlog)

/-- Claim C10 witness: one byte sits in the `Bytes` range; at
`1024 ^ 4` the index leaves the unit array. -/
theorem format_file_size_ranges_witness :
    formatFileSize 0 = SizeDisplay.zeroBytes ∧
      (sizeUnitIndex 1 ≤ 3 ∧
        ∃ u, fileSizeUnits.get? (sizeUnitIndex 1) = some u ∧
          formatFileSize 1 =
            SizeDisplay.scaled (roundTo2 ((1 : ℚ) / 1024 ^ sizeUnitIndex 1))
              (some u)) ∧
      (4 ≤ sizeUnitIndex (1024 ^ 4) ∧
        fileSizeUnits.get? (sizeUnitIndex (1024 ^ 4)) = none) :=
  ⟨format_file_size_ranges.1,
    by simpa using format_file_size_ranges.2.1 1 (le_refl 1) (by norm_num),
    format_file_size_ranges.2.2 (1024 ^ 4) (le_refl _)⟩

end JdaPortal
